import Mathlib

/-!
A shallow embedding of the rule-matching and action-dispatch engine of the
customappy repository (source: `src/components/AutomationPage.tsx`, the
automation-engine section containing `replacePlaceholders`,
`processAutomations` and `executeAction`, together with the `Automation`
data model of `types.ts`).

Modelling conventions:
* TypeScript numbers are modelled as `Rat` (the values the engine compares
  are job values and delays; all comparisons in the source are exact `<`/`>`).
* Optional / possibly-`undefined` fields are modelled as `Option`;
  JavaScript truthiness of a string is `some s` with `s ≠ ""`, of a number
  `some q` with `q ≠ 0`.
* A possibly-`null`/`undefined` event payload is `Option EventData`; a
  property access on `none` models the `TypeError` the source would throw,
  which the `try`/`catch` of `executeAction` converts into a logged failure.
* Handlers and the network are external: a behaviour oracle
  `hb : HandlerCall → Bool` says whether a given handler invocation succeeds
  (`true`) or throws (`false`).
* `console.log` / `console.warn` / `console.error` output is modelled by the
  `Report` type, so that "reports a skip", "reports a failure" and
  "silently does nothing" are distinguishable outcomes.
-/

namespace Customappy

/-- Trigger kinds, from `TriggerType` in `types.ts`. -/
inductive TriggerType where
  | new_customer
  | job_status_updated
  | job_created
  | task_completed
  | invoice_overdue
  | scheduled_time
  | inventory_low
deriving DecidableEq

/-- Action kinds, from `ActionType` in `types.ts`. -/
inductive ActionType where
  | webhook
  | create_task
  | add_to_schedule
  | send_email
  | update_inventory
  | send_sms
  | update_job_status
  | assign_team
  | create_invoice
deriving DecidableEq

/-- The nested customer record of a job/estimate payload (`calcData.customer`). -/
structure Customer where
  name : Option String := none
  address : Option String := none
  email : Option String := none
deriving DecidableEq

/-- The `calcData` sub-record of an estimate payload. -/
structure CalcData where
  customer : Option Customer := none
deriving DecidableEq

/-- The `costsData` sub-record of an estimate payload. -/
structure CostsData where
  finalQuote : Option Rat := none
deriving DecidableEq

/-- An event payload as the engine probes it: the union of the fields the
engine reads from `CustomerInfo` and `EstimateRecord` payloads.  A `none`
field models an absent (`undefined`) property; `estimateNumber = some s`
models the property being present (the `'estimateNumber' in data` test). -/
structure EventData where
  calcData : Option CalcData := none
  costsData : Option CostsData := none
  estimateNumber : Option String := none
  name : Option String := none
  address : Option String := none
  email : Option String := none
  status : Option String := none
deriving DecidableEq

/-- `trigger_config` of an `Automation` (`types.ts`). -/
structure TriggerConfig where
  to_status : Option String := none
  from_status : Option String := none
  job_value_min : Option Rat := none
  job_value_max : Option Rat := none
  time : Option String := none
  days_overdue : Option Rat := none
  stock_threshold : Option Rat := none
  item_name : Option String := none
deriving DecidableEq

/-- `action_config` of an `Automation` (`types.ts`).  `email_recipient`,
`sms_recipient` and `task_priority` are string unions at runtime, modelled
as optional strings. -/
structure ActionConfig where
  url : Option String := none
  task_title : Option String := none
  task_description : Option String := none
  task_priority : Option String := none
  email_subject : Option String := none
  email_body : Option String := none
  email_recipient : Option String := none
  custom_email : Option String := none
  sms_message : Option String := none
  sms_recipient : Option String := none
  custom_phone : Option String := none
  new_status : Option String := none
  team_ids : List Nat := []
  delay_minutes : Option Rat := none
deriving DecidableEq

/-- An automation rule (`Automation` in `types.ts`).  The generic
`conditions` list is carried but — exactly as in the source — never read by
the engine. -/
structure Automation where
  id : Option Nat := none
  name : String
  description : Option String := none
  trigger_type : TriggerType
  trigger_config : TriggerConfig := {}
  action_type : ActionType
  action_config : ActionConfig := {}
  is_enabled : Bool
deriving DecidableEq

/-- JavaScript truthiness of a possibly-undefined string. -/
def truthyS (o : Option String) : Bool :=
  match o with
  | some s => s ≠ ""
  | none => false

/-- JavaScript truthiness of a possibly-undefined number (`NaN` excluded from
the model; `0` is falsy). -/
def truthyQ (o : Option Rat) : Bool :=
  match o with
  | some q => q ≠ 0
  | none => false

/-- JavaScript `a || b || ''` over possibly-undefined strings. -/
def jsOrStr (a b : Option String) : String :=
  if truthyS a then a.getD "" else if truthyS b then b.getD "" else ""

/-- Does `pat` occur at the head of `s`? -/
def startsWith : List Char → List Char → Bool
  | [], _ => true
  | _ :: _, [] => false
  | p :: ps, c :: cs => p == c && startsWith ps cs

/-- Does `pat` occur anywhere in `s` (as a contiguous sublist)? -/
def containsSub (pat : List Char) : List Char → Bool
  | [] => startsWith pat []
  | c :: cs => startsWith pat (c :: cs) || containsSub pat cs

/-- Fuelled global replacement: the semantics of the JavaScript
`String.prototype.replace` with a global literal pattern — leftmost,
non-overlapping, the replacement text is not rescanned within the same call.
The fuel is only a termination device; `replaceAll` supplies enough. -/
def replaceAllF (pat rep : List Char) : Nat → List Char → List Char
  | 0, s => s
  | _ + 1, [] => []
  | fuel + 1, c :: cs =>
    if startsWith pat (c :: cs) && !pat.isEmpty then
      rep ++ replaceAllF pat rep fuel ((c :: cs).drop pat.length)
    else
      c :: replaceAllF pat rep fuel cs

/-- `s.replace(/pat/g, rep)` for a literal pattern. -/
def replaceAll (pat rep s : List Char) : List Char :=
  replaceAllF pat rep s.length s

/-- `n.toFixed(2)` for the rational model of a JavaScript number: round to
the nearest hundredth and print with exactly two digits after the point. -/
def toFixed2 (q : Rat) : String :=
  let n : Int := round (q * 100)
  let m : Nat := n.natAbs
  (if n < 0 then "-" else "") ++ toString (m / 100) ++ "." ++
    String.mk [Nat.digitChar (m / 10 % 10), Nat.digitChar (m % 10)]

/-- The value substituted for `[customer_name]`:
`data.calcData?.customer?.name || data.name || ''`. -/
def customerNameOf (d : EventData) : String :=
  jsOrStr ((d.calcData.bind (fun cc => cc.customer)).bind (fun c => c.name)) d.name

/-- The value substituted for `[customer_address]`:
`data.calcData?.customer?.address || data.address || ''`. -/
def customerAddressOf (d : EventData) : String :=
  jsOrStr ((d.calcData.bind (fun cc => cc.customer)).bind (fun c => c.address)) d.address

/-- The value substituted for `[job_number]`: `data.estimateNumber || ''`. -/
def jobNumberOf (d : EventData) : String :=
  if truthyS d.estimateNumber then d.estimateNumber.getD "" else ""

/-- The value substituted for `[job_value]`:
`data.costsData?.finalQuote?.toFixed(2) || ''` (note `toFixed2` never
returns the empty string, so the `|| ''` only covers the undefined case). -/
def jobValueStrOf (d : EventData) : String :=
  match d.costsData.bind (fun cd => cd.finalQuote) with
  | some q => toFixed2 q
  | none => ""

/-- `replacePlaceholders` from `AutomationPage.tsx`: four sequential global
replaces of the bracketed tokens, applied in source order
(`[customer_name]`, `[customer_address]`, `[job_number]`, `[job_value]`);
an empty (falsy) template short-circuits to `''`. -/
def replacePlaceholders (text : String) (d : EventData) : String :=
  if text = "" then ""
  else
    String.mk
      (replaceAll "[job_value]".toList (jobValueStrOf d).toList
        (replaceAll "[job_number]".toList (jobNumberOf d).toList
          (replaceAll "[customer_address]".toList (customerAddressOf d).toList
            (replaceAll "[customer_name]".toList (customerNameOf d).toList
              text.toList))))

/-- An invocation of an external handler (or of `fetch`, for webhooks),
with the arguments the engine passes.  For `addToSchedule` the source also
passes the current wall-clock date as start/end, a fixed color and an empty
link list; only the computed job name is data-dependent and modelled. -/
inductive HandlerCall where
  | fetchWebhook (url : String) (automationName : String) (trigger : TriggerType)
      (data : Option EventData)
  | createTask (title description : String)
  | addToSchedule (jobName : String)
  | sendEmail (recipient subject body : String)
  | deductInventoryForJob (job : EventData)
deriving DecidableEq

/-- A console report emitted by the engine (`console.log` / `console.warn` /
`console.error` lines), one constructor per distinct message site. -/
inductive Report where
  | running (automationName : String)
  | webhookSent (automationName : String)
  | webhookFailed (automationName : String)
  | taskCreated (title : String)
  | scheduleAdded (jobName : String)
  | emailSent (recipient : String)
  | emailSkipped (automationName : String)
  | smsNotImplemented (automationName : String)
  | updateJobStatusNotImplemented (newStatus : Option String)
  | assignTeamNotImplemented (automationName : String)
  | createInvoiceNotImplemented (automationName : String)
  | inventoryUpdated (estimateNumber : String)
  | inventorySkipped (automationName : String)
  | executionFailed (automationName : String)
deriving DecidableEq

/-- Is the report one of the `console.warn` validation-skip messages? -/
def Report.isSkip : Report → Bool
  | .emailSkipped _ => true
  | .inventorySkipped _ => true
  | _ => false

/-- Is the report one of the `console.error` failure messages (inner webhook
catch or the outer catch of `executeAction`)? -/
def Report.isFailure : Report → Bool
  | .webhookFailed _ => true
  | .executionFailed _ => true
  | _ => false

/-- Is the report one of the "no wired handler" not-implemented logs? -/
def Report.isNoop : Report → Bool
  | .smsNotImplemented _ => true
  | .updateJobStatusNotImplemented _ => true
  | .assignTeamNotImplemented _ => true
  | .createInvoiceNotImplemented _ => true
  | _ => false

/-- Is the report one of the success logs? -/
def Report.isSuccess : Report → Bool
  | .webhookSent _ => true
  | .taskCreated _ => true
  | .scheduleAdded _ => true
  | .emailSent _ => true
  | .inventoryUpdated _ => true
  | _ => false

/-- What one `executeAction` call did: the handler invocations it made and
the console reports it emitted, in order.  `executeAction` itself is total:
its outer `try`/`catch` turns every throw into an `executionFailed` report. -/
structure ExecResult where
  calls : List HandlerCall
  reports : List Report
deriving DecidableEq

/-- The `emailRecipient` resolution of the `send_email` branch.
`Except.error ()` models the `TypeError` thrown by `data.calcData` when the
payload is `null`/`undefined` in the customer-default branch. -/
def resolveEmailRecipient (cfg : ActionConfig) (data : Option EventData) :
    Except Unit (Option String) :=
  if cfg.email_recipient == some "custom" then
    .ok (some (if truthyS cfg.custom_email then cfg.custom_email.getD "" else ""))
  else if cfg.email_recipient == some "team" then
    .ok (some "team@example.com")
  else
    match data with
    | none => .error ()
    | some d =>
      .ok (if truthyS ((d.calcData.bind (fun cc => cc.customer)).bind (fun c => c.email))
           then (d.calcData.bind (fun cc => cc.customer)).bind (fun c => c.email)
           else d.email)

/-- `executeAction` from `AutomationPage.tsx`.  `hb` is the behaviour of the
external handlers: `hb call = false` means that handler invocation throws
(and the throw is caught — by the inner `try` for the webhook `fetch`, by
the outer `try` for everything else). -/
def executeAction (a : Automation) (data : Option EventData)
    (hb : HandlerCall → Bool) : ExecResult :=
  match a.action_type with
  | .webhook =>
    -- `if (automation.action_config.url)`: nothing at all on a falsy url.
    if truthyS a.action_config.url then
      let c := HandlerCall.fetchWebhook (a.action_config.url.getD "") a.name
        a.trigger_type data
      if hb c then ⟨[c], [.webhookSent a.name]⟩
      else ⟨[c], [.webhookFailed a.name]⟩
    else ⟨[], []⟩
  | .create_task =>
    -- `if (automation.action_config.task_title)`: the truthiness of the
    -- *configured* title is checked, before substitution.
    if truthyS a.action_config.task_title then
      match data with
      | none =>
        -- `replacePlaceholders` dereferences a null payload and throws;
        -- the outer catch reports the failure.
        ⟨[], [.executionFailed a.name]⟩
      | some d =>
        let title := replacePlaceholders (a.action_config.task_title.getD "") d
        let descr := replacePlaceholders (a.action_config.task_description.getD "") d
        let c := HandlerCall.createTask title descr
        if hb c then ⟨[c], [.taskCreated title]⟩
        else ⟨[c], [.executionFailed a.name]⟩
    else ⟨[], []⟩
  | .add_to_schedule =>
    -- `if (jobData && jobData.calcData?.customer)`: silent otherwise.
    match data with
    | none => ⟨[], []⟩
    | some d =>
      match d.calcData.bind (fun cc => cc.customer) with
      | some _ =>
        let jobName := replacePlaceholders "[customer_name] - [job_number]" d
        let c := HandlerCall.addToSchedule jobName
        if hb c then ⟨[c], [.scheduleAdded jobName]⟩
        else ⟨[c], [.executionFailed a.name]⟩
      | none => ⟨[], []⟩
  | .send_email =>
    match resolveEmailRecipient a.action_config data with
    | .error _ => ⟨[], [.executionFailed a.name]⟩
    | .ok recipient =>
      if truthyS recipient && truthyS a.action_config.email_subject then
        match data with
        | none =>
          -- substitution into the (non-empty) subject throws on a null payload
          ⟨[], [.executionFailed a.name]⟩
        | some d =>
          let subject := replacePlaceholders (a.action_config.email_subject.getD "") d
          let body := replacePlaceholders (a.action_config.email_body.getD "") d
          let c := HandlerCall.sendEmail (recipient.getD "") subject body
          if hb c then ⟨[c], [.emailSent (recipient.getD "")]⟩
          else ⟨[c], [.executionFailed a.name]⟩
      else ⟨[], [.emailSkipped a.name]⟩
  | .send_sms => ⟨[], [.smsNotImplemented a.name]⟩
  | .update_job_status => ⟨[], [.updateJobStatusNotImplemented a.action_config.new_status]⟩
  | .assign_team => ⟨[], [.assignTeamNotImplemented a.name]⟩
  | .create_invoice => ⟨[], [.createInvoiceNotImplemented a.name]⟩
  | .update_inventory =>
    match data with
    | none =>
      -- `'estimateNumber' in data` throws on a null payload; outer catch.
      ⟨[], [.executionFailed a.name]⟩
    | some d =>
      if d.estimateNumber.isSome then
        let c := HandlerCall.deductInventoryForJob d
        if hb c then ⟨[c], [.inventoryUpdated (d.estimateNumber.getD "")]⟩
        else ⟨[c], [.executionFailed a.name]⟩
      else ⟨[], [.inventorySkipped a.name]⟩

/-- The job value a condition check reads:
`job.costsData?.finalQuote || 0` (only evaluated on a non-null payload). -/
def jobValue (d : EventData) : Rat :=
  match d.costsData with
  | some cd => cd.finalQuote.getD 0
  | none => 0

/-- The condition check of `processAutomations` for one rule, against a
possibly-null payload.  `Except.error ()` models the `TypeError` thrown when
a branch dereferences a null payload (`job.costsData` under a truthy bound,
or `job.status`); nothing catches that throw in the source. -/
def evalCondition (t : TriggerType) (cfg : TriggerConfig)
    (data : Option EventData) : Except Unit Bool :=
  match t with
  | .new_customer => .ok true
  | .job_created => do
    let passMin : Bool ←
      if truthyQ cfg.job_value_min then
        match data with
        | none => Except.error ()
        | some d => pure (!(jobValue d < cfg.job_value_min.getD 0))
      else pure true
    let passMax : Bool ←
      if truthyQ cfg.job_value_max then
        match data with
        | none => Except.error ()
        | some d => pure (!(cfg.job_value_max.getD 0 < jobValue d))
      else pure true
    pure (passMin && passMax)
  | .job_status_updated =>
    match data with
    | none => .error ()   -- `job.status` on a null payload throws
    | some d =>
      -- a matching `to_status` sets shouldRun regardless of `from_status`;
      -- then the same bounds as `job_created`, guarded by shouldRun.
      let statusMatches := d.status == cfg.to_status
      let passMin := !truthyQ cfg.job_value_min || !(jobValue d < cfg.job_value_min.getD 0)
      let passMax := !truthyQ cfg.job_value_max || !(cfg.job_value_max.getD 0 < jobValue d)
      .ok (statusMatches && passMin && passMax)
  | .task_completed => .ok true
  | .invoice_overdue => .ok true
  | .scheduled_time => .ok true
  | .inventory_low => .ok true

/-- The pure condition check on a record (non-null) payload. -/
def condRecord (t : TriggerType) (cfg : TriggerConfig) (d : EventData) : Bool :=
  match t with
  | .job_created =>
    (!truthyQ cfg.job_value_min || !(jobValue d < cfg.job_value_min.getD 0)) &&
    (!truthyQ cfg.job_value_max || !(cfg.job_value_max.getD 0 < jobValue d))
  | .job_status_updated =>
    (d.status == cfg.to_status) &&
    (!truthyQ cfg.job_value_min || !(jobValue d < cfg.job_value_min.getD 0)) &&
    (!truthyQ cfg.job_value_max || !(cfg.job_value_max.getD 0 < jobValue d))
  | _ => true

/-- One scheduled unit of work produced by the dispatch pass: either an
action executed within the pass, or one handed to `setTimeout` with its
delay in milliseconds. -/
inductive Dispatch where
  | immediate (a : Automation) (result : ExecResult)
  | delayed (a : Automation) (delayMs : Rat)
deriving DecidableEq

/-- The rule a dispatch item belongs to. -/
def Dispatch.auto : Dispatch → Automation
  | .immediate a _ => a
  | .delayed a _ => a

/-- The console reports an item contributes within the pass (a delayed item
contributes none: `setTimeout` returns immediately). -/
def Dispatch.passReports : Dispatch → List Report
  | .immediate _ r => r.reports
  | .delayed _ _ => []

/-- The handler calls an item makes within the pass. -/
def Dispatch.passCalls : Dispatch → List HandlerCall
  | .immediate _ r => r.calls
  | .delayed _ _ => []

/-- The handler calls attributable to an item once `t` milliseconds of
wall-clock time have passed since the dispatch pass: an immediate item's
calls were already made; a `setTimeout` callback fires no earlier than its
delay, and then runs `executeAction`. -/
def Dispatch.callsAt (data : Option EventData) (hb : HandlerCall → Bool)
    (t : Rat) : Dispatch → List HandlerCall
  | .immediate _ r => r.calls
  | .delayed a ms => if ms ≤ t then (executeAction a data hb).calls else []

/-- How `processAutomations` schedules one rule that passed its condition:
`if (delay_minutes && delay_minutes > 0) setTimeout(..., delay*60*1000) else
executeAction(...)`. -/
def dispatchOne (data : Option EventData) (hb : HandlerCall → Bool)
    (a : Automation) : Dispatch :=
  if truthyQ a.action_config.delay_minutes && decide (0 < a.action_config.delay_minutes.getD 0) then
    .delayed a (a.action_config.delay_minutes.getD 0 * 60 * 1000)
  else
    .immediate a (executeAction a data hb)

/-- The outcome of one dispatch pass. -/
structure ProcResult where
  dispatched : List Dispatch
  reports : List Report
deriving DecidableEq

/-- The `for (const automation of automationsToRun)` loop of
`processAutomations`: evaluate the condition (a throw aborts the call), log
`Running automation: ...`, then dispatch immediately or via `setTimeout`. -/
def processLoop (t : TriggerType) (data : Option EventData)
    (hb : HandlerCall → Bool) : List Automation → Except Unit ProcResult
  | [] => .ok ⟨[], []⟩
  | a :: rest => do
    let shouldRun ← evalCondition t a.trigger_config data
    let tail ← processLoop t data hb rest
    if shouldRun then
      let item := dispatchOne data hb a
      pure ⟨item :: tail.dispatched,
            (Report.running a.name :: item.passReports) ++ tail.reports⟩
    else
      pure tail

/-- `processAutomations` from `AutomationPage.tsx`: filter to enabled rules
of the event's trigger kind, then run the per-rule loop. -/
def processAutomations (t : TriggerType) (data : Option EventData)
    (autos : List Automation) (hb : HandlerCall → Bool) : Except Unit ProcResult :=
  processLoop t data hb
    (autos.filter (fun a => a.is_enabled && (a.trigger_type == t)))

/-- The rules a dispatch pass runs, per the spec's matcher contract: enabled,
trigger kind equal to the event's, condition true — in rule-set order. -/
def matchedRules (t : TriggerType) (d : EventData) (autos : List Automation) :
    List Automation :=
  autos.filter (fun a => a.is_enabled && (a.trigger_type == t) &&
    condRecord t a.trigger_config d)

/-- The outcome of a dispatch pass on a record payload, in closed form:
each matched rule is dispatched independently of every other rule. -/
def passOutcome (t : TriggerType) (d : EventData) (hb : HandlerCall → Bool)
    (autos : List Automation) : ProcResult :=
  ⟨(matchedRules t d autos).map (dispatchOne (some d) hb),
   (matchedRules t d autos).flatMap
     (fun a => Report.running a.name :: (dispatchOne (some d) hb a).passReports)⟩

/-- `a` with its `delay_minutes` replaced (all other configuration equal). -/
def withDelay (a : Automation) (x : Option Rat) : Automation :=
  { a with action_config := { a.action_config with delay_minutes := x } }

/-- The spec's wording of the job-value bounds: each bound filters nothing
when absent or zero, and otherwise constrains inclusively. -/
def specBoundsOk (cfg : TriggerConfig) (jv : Rat) : Prop :=
  (cfg.job_value_min = none ∨ cfg.job_value_min = some 0 ∨ cfg.job_value_min.getD 0 ≤ jv) ∧
  (cfg.job_value_max = none ∨ cfg.job_value_max = some 0 ∨ jv ≤ cfg.job_value_max.getD 0)

/-! Concrete fixtures used by witnesses and counterexamples. -/

/-- A handler behaviour where every handler succeeds. -/
def hbAll : HandlerCall → Bool := fun _ => true

/-- A handler behaviour where the webhook `fetch` throws and every other
handler succeeds. -/
def hbWebhookFails : HandlerCall → Bool := fun c =>
  match c with
  | .fetchWebhook _ _ _ _ => false
  | _ => true

/-- A job payload with a nested customer named Acme and estimate number 1042. -/
def dAcme : EventData :=
  { calcData := some { customer := some { name := some "Acme" } },
    estimateNumber := some "1042" }

/-- The same payload with the estimate number absent. -/
def dAcmeNoNumber : EventData :=
  { calcData := some { customer := some { name := some "Acme" } } }

/-- A payload with no fields at all. -/
def dEmpty : EventData := {}

/-- A job payload whose final quote is 499.99. -/
def dVal49999 : EventData := { costsData := some { finalQuote := some (mkRat 49999 100) } }

/-- A job payload whose final quote is 500. -/
def dVal500 : EventData := { costsData := some { finalQuote := some 500 } }

/-- A job payload whose new status is "sold". -/
def dSold : EventData := { status := some "sold" }

/-- A trigger configuration with `job_value_min = 500`. -/
def cfgMin500 : TriggerConfig := { job_value_min := some 500 }

/-- A status-update trigger configuration with `to_status = "sold"`. -/
def cfgToSold : TriggerConfig := { to_status := some "sold" }

/-- The same with a `from_status` configured as well. -/
def cfgToSoldFromSched : TriggerConfig :=
  { to_status := some "sold", from_status := some "scheduled" }

/-- An enabled webhook rule with no url configured. -/
def webhookNoUrlAuto : Automation :=
  { name := "no-url webhook", trigger_type := .new_customer,
    action_type := .webhook, is_enabled := true }

/-- An enabled webhook rule with a url configured. -/
def urlAuto : Automation :=
  { name := "first", trigger_type := .new_customer, action_type := .webhook,
    action_config := { url := some "https://example.com/hook" }, is_enabled := true }

/-- An enabled create-task rule whose configured title is the literal token
`[job_number]` — truthy as configured, empty after substitution against a
payload with no estimate number. -/
def taskTokenTitleAuto : Automation :=
  { name := "token title", trigger_type := .new_customer, action_type := .create_task,
    action_config := { task_title := some "[job_number]" }, is_enabled := true }

/-- An enabled create-task rule titled "T". -/
def taskAuto : Automation :=
  { name := "second", trigger_type := .new_customer, action_type := .create_task,
    action_config := { task_title := some "T" }, is_enabled := true }

/-- An enabled create-task rule with no title configured. -/
def taskNoTitleAuto : Automation :=
  { name := "untitled", trigger_type := .new_customer, action_type := .create_task,
    is_enabled := true }

/-- An enabled create-task rule with a five-minute delay. -/
def aDelay5 : Automation :=
  { name := "delayed", trigger_type := .new_customer, action_type := .create_task,
    action_config := { task_title := some "T", delay_minutes := some 5 },
    is_enabled := true }

/-- An enabled SMS rule (no wired handler in this version). -/
def smsAuto : Automation :=
  { name := "sms", trigger_type := .new_customer, action_type := .send_sms,
    is_enabled := true }

/-- An enabled add-to-schedule rule. -/
def scheduleAuto : Automation :=
  { name := "sched", trigger_type := .job_created, action_type := .add_to_schedule,
    is_enabled := true }

/-! Helper lemmas. -/

/-- On a record (non-null) payload the condition check never throws and
agrees with the pure `condRecord`. -/
theorem evalCondition_some (t : TriggerType) (cfg : TriggerConfig) (d : EventData) :
    evalCondition t cfg (some d) = .ok (condRecord t cfg d) := by
  cases t
  case job_created =>
    cases h1 : truthyQ cfg.job_value_min <;> cases h2 : truthyQ cfg.job_value_max <;>
      simp [evalCondition, condRecord, bind, Except.bind, pure, Except.pure, h1, h2]
  all_goals rfl

/-- A dispatch item belongs to the rule it was built from. -/
theorem Dispatch.auto_dispatchOne (data : Option EventData) (hb : HandlerCall → Bool)
    (a : Automation) : (dispatchOne data hb a).auto = a := by
  unfold dispatchOne
  split <;> rfl

/-- `executeAction` never reads `delay_minutes`. -/
theorem executeAction_withDelay (a : Automation) (x : Option Rat)
    (data : Option EventData) (hb : HandlerCall → Bool) :
    executeAction (withDelay a x) data hb = executeAction a data hb := by
  cases a with
  | mk id name description trigger_type trigger_config action_type action_config is_enabled =>
    cases action_config
    rfl

/-- The per-rule loop on a record payload, in closed form. -/
theorem processLoop_some (t : TriggerType) (d : EventData) (hb : HandlerCall → Bool) :
    ∀ l : List Automation,
      processLoop t (some d) hb l =
        .ok ⟨(l.filter (fun a => condRecord t a.trigger_config d)).map (dispatchOne (some d) hb),
             (l.filter (fun a => condRecord t a.trigger_config d)).flatMap
               (fun a => Report.running a.name :: (dispatchOne (some d) hb a).passReports)⟩
  | [] => rfl
  | a :: l => by
    rw [processLoop]
    rw [evalCondition_some, processLoop_some t d hb l]
    cases h : condRecord t a.trigger_config d <;>
      simp [bind, Except.bind, pure, Except.pure, List.filter_cons, h]

/-- The whole dispatch pass on a record payload never throws and equals the
closed-form `passOutcome`: every matched rule is dispatched, independently
of the others. -/
theorem processAutomations_some (t : TriggerType) (d : EventData)
    (autos : List Automation) (hb : HandlerCall → Bool) :
    processAutomations t (some d) autos hb = .ok (passOutcome t d hb autos) := by
  rw [processAutomations, processLoop_some]
  have hf : (autos.filter (fun a => a.is_enabled && (a.trigger_type == t))).filter
      (fun a => condRecord t a.trigger_config d) = matchedRules t d autos := by
    rw [List.filter_filter]
    have hp : (fun a => condRecord t a.trigger_config d && (a.is_enabled && (a.trigger_type == t)))
        = (fun a : Automation =>
            a.is_enabled && (a.trigger_type == t) && condRecord t a.trigger_config d) := by
      funext a
      rw [Bool.and_comm]
    rw [hp]
    rfl
  rw [hf]
  rfl

/-- A list in which the pattern does not occur is left unchanged by
`replaceAllF`, whatever the fuel. -/
theorem replaceAllF_of_not_contains (pat rep : List Char) :
    ∀ (fuel : Nat) (s : List Char), containsSub pat s = false →
      replaceAllF pat rep fuel s = s
  | 0, s, _ => rfl
  | fuel + 1, [], _ => rfl
  | fuel + 1, c :: cs, h => by
    have h2 : (startsWith pat (c :: cs) || containsSub pat cs) = false := h
    rw [Bool.or_eq_false_iff] at h2
    rw [replaceAllF, h2.1]
    simp only [Bool.false_and, if_neg (by simp : ¬ (false = true))]
    rw [replaceAllF_of_not_contains pat rep fuel cs h2.2]

/-- A list in which the pattern does not occur is left unchanged by
`replaceAll`. -/
theorem replaceAll_of_not_contains (pat rep s : List Char)
    (h : containsSub pat s = false) : replaceAll pat rep s = s :=
  replaceAllF_of_not_contains pat rep s.length s h

/-- A template containing none of the four placeholder tokens is returned
verbatim by `replacePlaceholders`, whatever the payload. -/
theorem replacePlaceholders_of_no_token (text : String) (d : EventData)
    (h1 : containsSub "[customer_name]".toList text.toList = false)
    (h2 : containsSub "[customer_address]".toList text.toList = false)
    (h3 : containsSub "[job_number]".toList text.toList = false)
    (h4 : containsSub "[job_value]".toList text.toList = false) :
    replacePlaceholders text d = text := by
  rw [replacePlaceholders]
  split
  · rename_i he
    exact he.symm
  · rw [replaceAll_of_not_contains _ _ _ h1, replaceAll_of_not_contains _ _ _ h2,
        replaceAll_of_not_contains _ _ _ h3, replaceAll_of_not_contains _ _ _ h4]
    rfl

/-- `toFixed2` always produces a string whose fractional part is exactly two
characters long. -/
theorem toFixed2_shape (q : Rat) :
    ∃ intPart fracPart : String,
      toFixed2 q = intPart ++ "." ++ fracPart ∧ fracPart.length = 2 :=
  ⟨(if round (q * 100) < 0 then "-" else "") ++ toString ((round (q * 100)).natAbs / 100),
   String.mk [Nat.digitChar ((round (q * 100)).natAbs / 10 % 10),
              Nat.digitChar ((round (q * 100)).natAbs % 10)],
   rfl, rfl⟩

/-- The code's boolean bound checks agree with the spec's wording of the
job-value bounds. -/
theorem boundsPass_iff (cfg : TriggerConfig) (d : EventData) :
    ((!truthyQ cfg.job_value_min || !(jobValue d < cfg.job_value_min.getD 0)) &&
     (!truthyQ cfg.job_value_max || !(cfg.job_value_max.getD 0 < jobValue d))) = true ↔
    specBoundsOk cfg (jobValue d) := by
  cases hmin : cfg.job_value_min <;> cases hmax : cfg.job_value_max <;>
    simp [specBoundsOk, truthyQ, hmin, hmax, not_lt, Decidable.not_not, or_iff_not_imp_left]

/-- Claim C1: for every rule set and record-payload event,
`processAutomations` never throws, and the rules it dispatches are exactly
the enabled ones whose trigger kind equals the event's and whose
kind-specific condition holds, in rule-set order (a stable filter). -/
theorem claim_C1 (t : TriggerType) (d : EventData) (autos : List Automation)
    (hb : HandlerCall → Bool) :
    ∃ res, processAutomations t (some d) autos hb = Except.ok res ∧
      res.dispatched.map Dispatch.auto =
        autos.filter (fun a => a.is_enabled && (a.trigger_type == t) &&
          condRecord t a.trigger_config d) := by
  refine ⟨passOutcome t d hb autos, processAutomations_some t d autos hb, ?_⟩
  show ((matchedRules t d autos).map (dispatchOne (some d) hb)).map Dispatch.auto = _
  rw [List.map_map]
  have hcomp : (Dispatch.auto ∘ dispatchOne (some d) hb) = id := by
    funext a
    exact Dispatch.auto_dispatchOne (some d) hb a
  rw [hcomp, List.map_id]
  rfl

/-- Claim C2: the `job_created` condition holds exactly when each configured
bound passes — a bound that is absent or zero filters nothing, a configured
one is inclusive — with the job value defaulting to 0 when the final quote
is absent; in particular `job_value_min = 500` rejects 499.99, accepts
500.00 and rejects a payload with no quote. -/
theorem claim_C2 :
    (∀ cfg d, condRecord .job_created cfg d = true ↔ specBoundsOk cfg (jobValue d))
    ∧ condRecord .job_created cfgMin500 dVal49999 = false
    ∧ condRecord .job_created cfgMin500 dVal500 = true
    ∧ condRecord .job_created cfgMin500 dEmpty = false
    ∧ (∀ (cfg : TriggerConfig) (d : EventData), condRecord .job_created
        { cfg with job_value_min := none, job_value_max := none } d = true)
    ∧ (∀ (cfg : TriggerConfig) (d : EventData), condRecord .job_created
        { cfg with job_value_min := some 0, job_value_max := some 0 } d = true) := by
  refine ⟨fun cfg d => boundsPass_iff cfg d, by decide, by decide, by decide, ?_, ?_⟩
  · intro cfg d
    simp [condRecord, truthyQ]
  · intro cfg d
    simp [condRecord, truthyQ]

/-- Claim C3: the `job_status_updated` condition holds exactly when the
payload's status equals the configured `to_status` and the job-value bounds
pass; the configured `from_status` never affects the outcome, so a rule with
`to_status = "sold"` matches a payload with status "sold" whether or not
`from_status` is set. -/
theorem claim_C3 :
    (∀ cfg d, condRecord .job_status_updated cfg d = true ↔
       (d.status = cfg.to_status ∧ specBoundsOk cfg (jobValue d)))
    ∧ (∀ (cfg : TriggerConfig) (fs : Option String) (d : EventData),
         condRecord .job_status_updated { cfg with from_status := fs } d =
         condRecord .job_status_updated cfg d)
    ∧ condRecord .job_status_updated cfgToSold dSold = true
    ∧ condRecord .job_status_updated cfgToSoldFromSched dSold = true
    ∧ condRecord .job_status_updated cfgToSold dEmpty = false := by
  refine ⟨?_, fun cfg fs d => rfl, by decide, by decide, by decide⟩
  intro cfg d
  unfold condRecord
  rw [Bool.and_assoc, Bool.and_eq_true, beq_iff_eq, boundsPass_iff]

/-- Claim C4: placeholder substitution is a total pure function over
templates and payload records — its concrete behaviour on the spec's
examples, its treatment of absent data (empty substitution), two-decimal
formatting of the job value, and verbatim preservation of any template
containing none of the four tokens. -/
theorem claim_C4 :
    replacePlaceholders "[customer_name] - [job_number]" dAcme = "Acme - 1042"
    ∧ replacePlaceholders "[customer_name] - [job_number]" dAcmeNoNumber = "Acme - "
    ∧ replacePlaceholders "[customer_address]" dAcme = ""
    ∧ replacePlaceholders "[job_value]" dAcme = ""
    ∧ replacePlaceholders "[job_number][job_number]" dAcme = "10421042"
    ∧ (∀ text d,
        containsSub "[customer_name]".toList text.toList = false →
        containsSub "[customer_address]".toList text.toList = false →
        containsSub "[job_number]".toList text.toList = false →
        containsSub "[job_value]".toList text.toList = false →
        replacePlaceholders text d = text)
    ∧ (∀ q : Rat, ∃ intPart fracPart : String,
        toFixed2 q = intPart ++ "." ++ fracPart ∧ fracPart.length = 2) :=
  ⟨by decide, by decide, by decide, by decide, by decide,
   fun text d h1 h2 h3 h4 => replacePlaceholders_of_no_token text d h1 h2 h3 h4,
   toFixed2_shape⟩

/-- Witness for C4: the preservation clause applied at a concrete template
and payload. -/
theorem claim_C4_witness :
    replacePlaceholders "Install crew for [foo]" dAcme = "Install crew for [foo]" :=
  claim_C4.2.2.2.2.2.1 "Install crew for [foo]" dAcme
    (by decide) (by decide) (by decide) (by decide)

/-- A rule with a truthy positive delay is handed to `setTimeout` with
`delay_minutes * 60 * 1000` milliseconds. -/
theorem dispatchOne_delayed (data : Option EventData) (hb : HandlerCall → Bool)
    (a : Automation) (dm : Rat) (h : a.action_config.delay_minutes = some dm)
    (hdm : 0 < dm) : dispatchOne data hb a = .delayed a (dm * 60 * 1000) := by
  unfold dispatchOne
  rw [h]
  simp [truthyQ, ne_of_gt hdm, hdm]

/-- Five minutes in milliseconds. -/
theorem fiveMinutesMs : (5 : Rat) * 60 * 1000 = 300000 := by norm_num

/-- Claim C5: a matched rule with `delay_minutes` zero or absent executes
immediately within the dispatch pass, and zero behaves identically to
absent (`executeAction` never reads the delay); a positive delay schedules
the action for `delay_minutes * 60 * 1000` milliseconds — i.e.
`delay_minutes * 60` seconds — so its handler runs at no time earlier than
the delay and does run once the delay has elapsed, without blocking the
processing of the remaining rules of the pass. -/
theorem claim_C5 :
    (∀ a data hb, a.action_config.delay_minutes = none →
        dispatchOne data hb a = .immediate a (executeAction a data hb))
    ∧ (∀ a data hb, a.action_config.delay_minutes = some 0 →
        dispatchOne data hb a = .immediate a (executeAction a data hb))
    ∧ (∀ a x data hb, executeAction (withDelay a x) data hb = executeAction a data hb)
    ∧ (∀ a data hb dm, a.action_config.delay_minutes = some dm → 0 < dm →
        dispatchOne data hb a = .delayed a (dm * 60 * 1000)
        ∧ (∀ tm : Rat, tm < dm * 60 * 1000 →
            Dispatch.callsAt data hb tm (.delayed a (dm * 60 * 1000)) = [])
        ∧ ∀ tm : Rat, dm * 60 * 1000 ≤ tm →
            Dispatch.callsAt data hb tm (.delayed a (dm * 60 * 1000)) =
              (executeAction a data hb).calls)
    ∧ (∀ t d hb a rest dm tail, a.action_config.delay_minutes = some dm → 0 < dm →
        condRecord t a.trigger_config d = true →
        processLoop t (some d) hb rest = .ok tail →
        processLoop t (some d) hb (a :: rest) =
          .ok ⟨.delayed a (dm * 60 * 1000) :: tail.dispatched,
               Report.running a.name :: tail.reports⟩) := by
  refine ⟨?_, ?_, fun a x data hb => executeAction_withDelay a x data hb, ?_, ?_⟩
  · intro a data hb h
    unfold dispatchOne
    rw [h]
    simp [truthyQ]
  · intro a data hb h
    unfold dispatchOne
    rw [h]
    simp [truthyQ]
  · intro a data hb dm h hdm
    refine ⟨dispatchOne_delayed data hb a dm h hdm, ?_, ?_⟩
    · intro tm htm
      simp [Dispatch.callsAt, not_le.mpr htm]
    · intro tm htm
      simp [Dispatch.callsAt, htm]
  · intro t d hb a rest dm tail h hdm hcond htail
    rw [processLoop]
    rw [evalCondition_some, hcond, htail]
    simp only [bind, Except.bind, pure, Except.pure, if_pos]
    rw [dispatchOne_delayed (some d) hb a dm h hdm]
    rfl

/-- Witness for C5: a create-task rule delayed by five minutes is scheduled
at 300000 ms, makes no call before that and executes `executeAction` at it;
with the delay removed it executes immediately with the same result. -/
theorem claim_C5_witness :
    dispatchOne (some dAcme) hbAll aDelay5 = .delayed aDelay5 ((5 : Rat) * 60 * 1000)
    ∧ Dispatch.callsAt (some dAcme) hbAll 0 (.delayed aDelay5 ((5 : Rat) * 60 * 1000)) = []
    ∧ Dispatch.callsAt (some dAcme) hbAll 300000 (.delayed aDelay5 ((5 : Rat) * 60 * 1000)) =
        (executeAction aDelay5 (some dAcme) hbAll).calls
    ∧ dispatchOne (some dAcme) hbAll (withDelay aDelay5 none) =
        .immediate (withDelay aDelay5 none) (executeAction aDelay5 (some dAcme) hbAll) := by
  obtain ⟨h0, hz, hinv, hpos, hloop⟩ := claim_C5
  have hd := hpos aDelay5 (some dAcme) hbAll 5 rfl (by decide)
  refine ⟨hd.1, hd.2.1 0 ?_, hd.2.2 300000 ?_, ?_⟩
  · rw [fiveMinutesMs]
    decide
  · rw [fiveMinutesMs]
  · have him := h0 (withDelay aDelay5 none) (some dAcme) hbAll rfl
    rw [hinv aDelay5 none (some dAcme) hbAll] at him
    exact him

/-- Claim C6: on a record payload the engine-level call never propagates an
error, and each matched rule's dispatch is a function of that rule alone
(so one rule's handler failure cannot prevent a later rule's execution);
concretely, with a failing webhook first and a create-task rule second, the
second still executes and reports success. -/
theorem claim_C6 (t : TriggerType) (d : EventData) (autos : List Automation)
    (hb : HandlerCall → Bool) :
    (∃ res, processAutomations t (some d) autos hb = Except.ok res ∧
       res.dispatched = (matchedRules t d autos).map (dispatchOne (some d) hb))
    ∧ processAutomations .new_customer (some dAcme) [urlAuto, taskAuto] hbWebhookFails =
        .ok ⟨[.immediate urlAuto
                ⟨[.fetchWebhook "https://example.com/hook" "first" .new_customer (some dAcme)],
                 [.webhookFailed "first"]⟩,
              .immediate taskAuto ⟨[.createTask "T" ""], [.taskCreated "T"]⟩],
             [.running "first", .webhookFailed "first",
              .running "second", .taskCreated "T"]⟩ := by
  refine ⟨⟨passOutcome t d hb autos, processAutomations_some t d autos hb, rfl⟩, ?_⟩
  rfl

/-- Claim C7 (amended): dispatching a webhook rule with no truthy url never
invokes the network layer — and is a silent no-op: no report of any kind is
produced (neither a skip nor a failure). -/
theorem claim_C7 (a : Automation) (data : Option EventData) (hb : HandlerCall → Bool)
    (hty : a.action_type = .webhook) (hurl : truthyS a.action_config.url = false) :
    executeAction a data hb = ⟨[], []⟩ := by
  simp [executeAction, hty, hurl]

/-- Counterexample for C7 as frozen: a webhook rule with no url makes no
call, but nothing is reported either — in particular no skip report, which
the claim asserts. -/
theorem claim_C7_counterexample :
    webhookNoUrlAuto.action_type = ActionType.webhook
    ∧ webhookNoUrlAuto.action_config.url = none
    ∧ (executeAction webhookNoUrlAuto (some dAcme) hbAll).calls = []
    ∧ (executeAction webhookNoUrlAuto (some dAcme) hbAll).reports = []
    ∧ ¬ ∃ r ∈ (executeAction webhookNoUrlAuto (some dAcme) hbAll).reports,
        r.isSkip = true := by
  refine ⟨rfl, rfl, rfl, rfl, ?_⟩
  decide

/-- Witness for C7: the amended theorem at the concrete no-url webhook rule. -/
theorem claim_C7_witness :
    executeAction webhookNoUrlAuto (some dAcme) hbAll = ⟨[], []⟩ :=
  claim_C7 webhookNoUrlAuto (some dAcme) hbAll rfl rfl

/-- Claim C8 (amended): the create-task handler is invoked iff the
*configured* title is truthy — the check precedes substitution, so the
handler can be invoked with an empty substituted title; when the configured
title is falsy the dispatch is a silent no-op (no report), not a crash. -/
theorem claim_C8 (a : Automation) (d : EventData) (hb : HandlerCall → Bool)
    (hty : a.action_type = .create_task) :
    (truthyS a.action_config.task_title = false →
       executeAction a (some d) hb = ⟨[], []⟩)
    ∧ (truthyS a.action_config.task_title = true →
       (executeAction a (some d) hb).calls =
         [HandlerCall.createTask
           (replacePlaceholders (a.action_config.task_title.getD "") d)
           (replacePlaceholders (a.action_config.task_description.getD "") d)]) := by
  constructor
  · intro h
    simp [executeAction, hty, h]
  · intro h
    simp only [executeAction, hty, h, if_true]
    split <;> rfl

/-- Counterexample for C8 as frozen: a rule whose configured title is the
literal token `[job_number]`, against a payload with no estimate number —
the substituted title is empty, yet the handler is invoked. -/
theorem claim_C8_counterexample :
    taskTokenTitleAuto.action_type = ActionType.create_task
    ∧ replacePlaceholders (taskTokenTitleAuto.action_config.task_title.getD "")
        dAcmeNoNumber = ""
    ∧ (executeAction taskTokenTitleAuto (some dAcmeNoNumber) hbAll).calls =
        [HandlerCall.createTask "" ""] := by
  refine ⟨rfl, by decide, by decide⟩

/-- Witness for C8: the amended theorem at a titled and an untitled rule. -/
theorem claim_C8_witness :
    executeAction taskNoTitleAuto (some dAcme) hbAll = ⟨[], []⟩
    ∧ (executeAction taskAuto (some dAcme) hbAll).calls =
        [HandlerCall.createTask "T" ""] := by
  refine ⟨(claim_C8 taskNoTitleAuto dAcme hbAll rfl).1 rfl, ?_⟩
  have h := (claim_C8 taskAuto dAcme hbAll rfl).2 rfl
  rw [h]
  decide

/-- Claim C9: a rule whose action kind is `send_sms`, `update_job_status`,
`assign_team` or `create_invoice` dispatches without error, invokes no
handler, and produces exactly one report which is a no-op report — not a
failure and not a success. -/
theorem claim_C9 (a : Automation) (data : Option EventData) (hb : HandlerCall → Bool)
    (hty : a.action_type = .send_sms ∨ a.action_type = .update_job_status ∨
           a.action_type = .assign_team ∨ a.action_type = .create_invoice) :
    (executeAction a data hb).calls = []
    ∧ (executeAction a data hb).reports.length = 1
    ∧ ∀ r ∈ (executeAction a data hb).reports,
        r.isNoop = true ∧ r.isFailure = false ∧ r.isSuccess = false := by
  rcases hty with h | h | h | h <;>
    simp [executeAction, h, Report.isNoop, Report.isFailure, Report.isSuccess]

/-- Witness for C9: the theorem at a concrete SMS rule. -/
theorem claim_C9_witness :
    (executeAction smsAuto (some dAcme) hbAll).calls = []
    ∧ (executeAction smsAuto (some dAcme) hbAll).reports.length = 1
    ∧ ∀ r ∈ (executeAction smsAuto (some dAcme) hbAll).reports,
        r.isNoop = true ∧ r.isFailure = false ∧ r.isSuccess = false :=
  claim_C9 smsAuto (some dAcme) hbAll (Or.inl rfl)

/-- Claim C10: the add-to-schedule handler is invoked exactly when the
payload is a truthy record containing a nested `calcData.customer`; when
that implicit precondition fails the dispatch is a silent no-op — no call
and no report of any kind (unlike the reported skips of `send_email` and
`update_inventory`). -/
theorem claim_C10 (a : Automation) (data : Option EventData) (hb : HandlerCall → Bool)
    (hty : a.action_type = .add_to_schedule) :
    (∀ d, data = some d → (d.calcData.bind (fun cc => cc.customer)).isSome = true →
       (executeAction a data hb).calls =
         [HandlerCall.addToSchedule (replacePlaceholders "[customer_name] - [job_number]" d)])
    ∧ (data = none → executeAction a data hb = ⟨[], []⟩)
    ∧ (∀ d, data = some d → (d.calcData.bind (fun cc => cc.customer)).isSome = false →
       executeAction a data hb = ⟨[], []⟩) := by
  refine ⟨?_, ?_, ?_⟩
  · intro d hd hcc
    subst hd
    rw [Option.isSome_iff_exists] at hcc
    obtain ⟨c, hc⟩ := hcc
    simp only [executeAction, hty, hc]
    split <;> rfl
  · intro hd
    subst hd
    simp [executeAction, hty]
  · intro d hd hcc
    subst hd
    have hnone : (d.calcData.bind fun cc => cc.customer) = none := by
      cases hx : d.calcData.bind fun cc => cc.customer
      · rfl
      · rw [hx] at hcc
        simp at hcc
    simp [executeAction, hty, hnone]

/-- Witness for C10: the theorem at the concrete schedule rule, for a
payload with a nested customer, a null payload, and a customer-less record. -/
theorem claim_C10_witness :
    (executeAction scheduleAuto (some dAcme) hbAll).calls =
      [HandlerCall.addToSchedule "Acme - 1042"]
    ∧ executeAction scheduleAuto none hbAll = ⟨[], []⟩
    ∧ executeAction scheduleAuto (some dEmpty) hbAll = ⟨[], []⟩ := by
  refine ⟨?_, (claim_C10 scheduleAuto none hbAll rfl).2.1 rfl,
          (claim_C10 scheduleAuto (some dEmpty) hbAll rfl).2.2 dEmpty rfl rfl⟩
  have h := (claim_C10 scheduleAuto (some dAcme) hbAll rfl).1 dAcme rfl rfl
  rw [h]
  decide

end Customappy
